import Mathlib

/-!
Shallow embedding of the namespace / item-resolution core of the fe analyzer
(`crates/analyzer/src/namespace/items.rs`), together with proofs about the
properties its specification states.

The salsa-style query database is modelled as a structure `Fe.Db` of plain
functions: every `db.some_query(id)` call in the source becomes a field
application.  Functions of the source file itself are translated
definition-by-definition.  `Rc<IndexMap<..>>` values are modelled as ordered
association lists with the `indexmap` insertion semantics (`Fe.imInsert`,
`Fe.imCollect`, `Fe.imLookup`).  A Rust panic (`todo!`, `unreachable!`,
out-of-bounds indexing) is modelled by returning `none` from an
`Option`-valued function.
-/

namespace Fe

/-- Source span (`fe_parser::node::Span`); `end` is a Lean keyword, so the
second field is named `endPos`. -/
structure Span where
  start : Nat
  endPos : Nat
deriving DecidableEq, Repr

/-- `fe_parser::node::Node<T>`: a payload together with its span. -/
structure Node (α : Type) where
  kind : α
  span : Span
deriving DecidableEq, Repr

/-- `fe_common::diagnostics::Diagnostic`, restricted to the two constructors
used in this file: `Diagnostic::error(msg)` and
`errors::error(message, span, label)`. -/
inductive Diagnostic
  | simpleError (message : String)
  | spannedError (message : String) (span : Span) (label : String)
deriving DecidableEq, Repr

/-- `crate::context::Analysis<T>`: a value paired with the diagnostics the
query produced. -/
structure Analysis (α : Type) where
  value : α
  diagnostics : List Diagnostic
deriving DecidableEq, Repr

/-- Ordered-map (`indexmap::IndexMap`) insert: if the key is present, the value
is replaced in place (position kept); otherwise the pair is appended. -/
def imInsert {α β : Type} [DecidableEq α] : List (α × β) → α → β → List (α × β)
  | [], k, v => [(k, v)]
  | p :: t, k, v => if p.1 = k then (k, v) :: t else p :: imInsert t k v

/-- `IndexMap::from_iter` / repeated `insert` over a pair sequence. -/
def imCollect {α β : Type} [DecidableEq α] (l : List (α × β)) : List (α × β) :=
  l.foldl (fun m p => imInsert m p.1 p.2) []

/-- `IndexMap::get`: first (and, for genuine maps, only) binding of the key. -/
def imLookup {α β : Type} [DecidableEq α] : List (α × β) → α → Option β
  | [], _ => none
  | p :: t, k => if p.1 = k then some p.2 else imLookup t k

/-- Last binding of a key in a raw pair list; this is what a key maps to after
the list is collected into an `IndexMap` (later entries overwrite). -/
def lastLookup {α β : Type} [DecidableEq α] : List (α × β) → α → Option β
  | [], _ => none
  | p :: t, k =>
    match lastLookup t k with
    | some v => some v
    | none => if p.1 = k then some p.2 else none

/-- Key list of an association list. -/
def imKeys {α β : Type} (m : List (α × β)) : List α := m.map Prod.fst

/-- Interned id of an `Ingot` (a 32-bit integer in the source). -/
structure IngotId where
  id : Nat
deriving DecidableEq, Repr

/-- Interned id of a `Module`. -/
structure ModuleId where
  id : Nat
deriving DecidableEq, Repr

/-- Interned id of a `Contract`. -/
structure ContractId where
  id : Nat
deriving DecidableEq, Repr

/-- Interned id of a `Struct`. -/
structure StructId where
  id : Nat
deriving DecidableEq, Repr

/-- Interned id of a `Function`. -/
structure FunctionId where
  id : Nat
deriving DecidableEq, Repr

/-- Interned id of an `Event`. -/
structure EventId where
  id : Nat
deriving DecidableEq, Repr

/-- Interned id of a `TypeAlias`. -/
structure TypeAliasId where
  id : Nat
deriving DecidableEq, Repr

/-- Interned id of a `ModuleConstant`. -/
structure ModuleConstantId where
  id : Nat
deriving DecidableEq, Repr

/-- Interned id of a `ContractField`. -/
structure ContractFieldId where
  id : Nat
deriving DecidableEq, Repr

/-- Interned id of a `StructField`. -/
structure StructFieldId where
  id : Nat
deriving DecidableEq, Repr

/-- Modelled from the spec: the primitive integer types of the prelude
(`types::Integer` lives outside the given source file; the spec lists
`u8..u256` and `i8..i256`). -/
inductive IntegerTy
  | u8 | u16 | u32 | u64 | u128 | u256
  | i8 | i16 | i32 | i64 | i128 | i256
deriving DecidableEq, Repr

def IntegerTy.name : IntegerTy → String
  | .u8 => "u8" | .u16 => "u16" | .u32 => "u32"
  | .u64 => "u64" | .u128 => "u128" | .u256 => "u256"
  | .i8 => "i8" | .i16 => "i16" | .i32 => "i32"
  | .i64 => "i64" | .i128 => "i128" | .i256 => "i256"

/-- `types::Integer::iter()` order, `u8..u256` then `i8..i256`. -/
def IntegerTy.all : List IntegerTy :=
  [.u8, .u16, .u32, .u64, .u128, .u256, .i8, .i16, .i32, .i64, .i128, .i256]

/-- Modelled from the spec: `types::Base`, the primitive types `bool`,
`address` and the integers (the `types` module is outside the given source
file). -/
inductive Base
  | bool
  | address
  | numeric (t : IntegerTy)
deriving DecidableEq, Repr

def Base.name : Base → String
  | .bool => "bool"
  | .address => "address"
  | .numeric t => t.name

/-- Modelled from the spec: `types::GenericType`, the generic type
constructors of the prelude (the spec names `Array` and `Map`). -/
inductive GenericType
  | array
  | map
deriving DecidableEq, Repr

def GenericType.name : GenericType → String
  | .array => "Array"
  | .map => "Map"

def GenericType.all : List GenericType := [.array, .map]

/-- Modelled from the spec: `builtins::GlobalFunction` (the spec names
`keccak256`). -/
inductive GlobalFunction
  | keccak256
deriving DecidableEq, Repr

def GlobalFunction.name : GlobalFunction → String
  | .keccak256 => "keccak256"

def GlobalFunction.all : List GlobalFunction := [.keccak256]

/-- Modelled from the spec: `builtins::Intrinsic` ("every intrinsic"; a
representative member is used). -/
inductive Intrinsic
  | addIntrinsic
deriving DecidableEq, Repr

def Intrinsic.name : Intrinsic → String
  | .addIntrinsic => "__add"

def Intrinsic.all : List Intrinsic := [.addIntrinsic]

/-- Modelled from the spec: `builtins::GlobalObject` (the spec names `block`
and `msg`). -/
inductive GlobalObject
  | block
  | msg
deriving DecidableEq, Repr

def GlobalObject.name : GlobalObject → String
  | .block => "block"
  | .msg => "msg"

def GlobalObject.all : List GlobalObject := [.block, .msg]

/-- `TypeDef`: named type definitions. -/
inductive TypeDef
  | alias (id : TypeAliasId)
  | struct (id : StructId)
  | contract (id : ContractId)
  | primitive (b : Base)
deriving DecidableEq, Repr

/-- `Item`: the sum type of named entities. -/
inductive Item
  | ingot (id : IngotId)
  | module (id : ModuleId)
  | type (td : TypeDef)
  | genericType (g : GenericType)
  | event (id : EventId)
  | function (id : FunctionId)
  | constant (id : ModuleConstantId)
  | builtinFunction (f : GlobalFunction)
  | intrinsic (i : Intrinsic)
  | object (o : GlobalObject)
deriving DecidableEq, Repr

/-- `Class`: an item that can have member functions. -/
inductive Class
  | contract (id : ContractId)
  | struct (id : StructId)
deriving DecidableEq, Repr

/-- `Class::as_item`. -/
def Class.as_item : Class → Item
  | .contract id => Item.type (TypeDef.contract id)
  | .struct id => Item.type (TypeDef.struct id)

/-- `IngotMode`. -/
inductive IngotMode
  | main
  | lib
  | standaloneModule
deriving DecidableEq, Repr

/-- `Ingot` backing record. -/
structure Ingot where
  name : String
  mode : IngotMode
  original : Option IngotId
  srcDir : String
deriving DecidableEq, Repr

/-- `ast::Pragma` (from the parser crate, outside the given source file):
only its presence matters here. -/
structure Pragma where
  versionRequirement : String
deriving DecidableEq, Repr

/-- `ast::ModuleStmt` (from the parser crate). Only the `Pragma` payload is
inspected by the embedded code. -/
inductive ModuleStmt
  | pragma (node : Node Pragma)
  | use
  | typeAlias
  | contract
  | struct
  | function
  | constantDecl
  | event
deriving DecidableEq, Repr

/-- `ast::Module` (from the parser crate): a body of module statements. -/
structure Ast where
  body : List ModuleStmt
deriving DecidableEq, Repr

/-- `ModuleSource`. The `Lowered` variant's `Rc<ast::Module>` is carried
inline. -/
inductive ModuleSource
  | file (id : Nat)
  | dir (path : String)
  | lowered (original : ModuleId) (ast : Ast)
deriving DecidableEq, Repr

/-- `Module` backing record. -/
structure Module where
  name : String
  ingot : IngotId
  source : ModuleSource
deriving DecidableEq, Repr

/-- `TypeAlias` backing record; the `ast` node is replaced by the name it
provides. -/
structure TypeAlias where
  name : String
  module : ModuleId
deriving DecidableEq, Repr

/-- `Contract` backing record; the `ast` node is replaced by the name it
provides. -/
structure Contract where
  name : String
  module : ModuleId
deriving DecidableEq, Repr

/-- `Struct` backing record; the `ast` node is replaced by the name it
provides. -/
structure Struct where
  name : String
  module : ModuleId
deriving DecidableEq, Repr

/-- `Event` backing record; the `ast` node is replaced by the name it
provides. -/
structure Event where
  name : String
  module : ModuleId
  contract : Option ContractId
deriving DecidableEq, Repr

/-- `Function` backing record; the `ast` node is replaced by the name it
provides. -/
structure Function where
  name : String
  module : ModuleId
  parent : Option Class
deriving DecidableEq, Repr

/-- `ModuleConstant` backing record; the `ast` node is replaced by the name
it provides. -/
structure ModuleConstant where
  name : String
  module : ModuleId
deriving DecidableEq, Repr

/-- The `AnalyzerDb` database: every salsa query and intern-table lookup the
embedded code performs is a field.  Queries not defined in the given source
file (parsing, item collection, type checking, and `check_pragma_version`
from the pragma traversal) are abstract inputs. -/
structure Db where
  ingotData : IngotId → Ingot
  ingotModules : IngotId → List ModuleId
  ingotExternalIngots : IngotId → List (String × IngotId)
  ingotRootModule : IngotId → Option ModuleId
  moduleData : ModuleId → Module
  moduleParse : ModuleId → Analysis Ast
  moduleItemMap : ModuleId → Analysis (List (String × Item))
  moduleAllItems : ModuleId → List Item
  moduleSubmodules : ModuleId → List ModuleId
  moduleParentModule : ModuleId → Option ModuleId
  checkPragmaVersion : Node Pragma → Option Diagnostic
  typeAliasData : TypeAliasId → TypeAlias
  typeAliasTypeDiags : TypeAliasId → List Diagnostic
  contractData : ContractId → Contract
  contractFieldMapDiags : ContractId → List Diagnostic
  contractAllFields : ContractId → List ContractFieldId
  contractFieldTypeDiags : ContractFieldId → List Diagnostic
  contractEventMapDiags : ContractId → List Diagnostic
  contractAllEvents : ContractId → List EventId
  contractInitFunctionDiags : ContractId → List Diagnostic
  contractCallFunctionDiags : ContractId → List Diagnostic
  contractFunctionMapDiags : ContractId → List Diagnostic
  contractAllFunctions : ContractId → List FunctionId
  structData : StructId → Struct
  structFieldMapDiags : StructId → List Diagnostic
  structAllFields : StructId → List StructFieldId
  structFieldTypeDiags : StructFieldId → List Diagnostic
  structAllFunctions : StructId → List FunctionId
  eventData : EventId → Event
  eventTypeDiags : EventId → List Diagnostic
  functionData : FunctionId → Function
  functionSignatureDiags : FunctionId → List Diagnostic
  functionBodyDiags : FunctionId → List Diagnostic
  moduleConstantData : ModuleConstantId → ModuleConstant
  moduleConstantTypeDiags : ModuleConstantId → List Diagnostic

/-- `std_prelude_items()` (items.rs:219): the `indexmap!` literal for `bool`
and `address`, extended with the integers, generic types, built-in functions,
intrinsics and global objects. -/
def std_prelude_items : List (String × Item) :=
  imCollect
    ([("bool", Item.type (TypeDef.primitive Base.bool)),
      ("address", Item.type (TypeDef.primitive Base.address))]
      ++ IntegerTy.all.map
        (fun t => (t.name, Item.type (TypeDef.primitive (Base.numeric t))))
      ++ GenericType.all.map (fun g => (g.name, Item.genericType g))
      ++ GlobalFunction.all.map (fun f => (f.name, Item.builtinFunction f))
      ++ Intrinsic.all.map (fun i => (i.name, Item.intrinsic i))
      ++ GlobalObject.all.map (fun o => (o.name, Item.object o)))

/-- `TypeDef::name`. -/
def TypeDef.name (db : Db) : TypeDef → String
  | .alias id => (db.typeAliasData id).name
  | .struct id => (db.structData id).name
  | .contract id => (db.contractData id).name
  | .primitive b => b.name

/-- `Item::name` (items.rs:47). -/
def Item.name (db : Db) : Item → String
  | .type td => TypeDef.name db td
  | .genericType g => g.name
  | .event id => (db.eventData id).name
  | .function id => (db.functionData id).name
  | .builtinFunction f => f.name
  | .intrinsic i => i.name
  | .object o => o.name
  | .constant id => (db.moduleConstantData id).name
  | .ingot id => (db.ingotData id).name
  | .module id => (db.moduleData id).name

/-- `TypeDef::parent` (items.rs:825). -/
def TypeDef.parent (db : Db) : TypeDef → Option Item
  | .alias id => some (Item.module (db.typeAliasData id).module)
  | .struct id => some (Item.module (db.structData id).module)
  | .contract id => some (Item.module (db.contractData id).module)
  | .primitive _ => none

/-- `Item::parent` (items.rs:125); the delegated `parent` methods of
`EventId`, `FunctionId`, `ModuleConstantId` and `ModuleId` are inlined. -/
def Item.parent (db : Db) : Item → Option Item
  | .type td => TypeDef.parent db td
  | .genericType _ => none
  | .event id =>
    some (match (db.eventData id).contract with
      | some c => Item.type (TypeDef.contract c)
      | none => Item.module (db.eventData id).module)
  | .function id =>
    some (match (db.functionData id).parent with
      | some cls => cls.as_item
      | none => Item.module (db.functionData id).module)
  | .constant id => some (Item.module (db.moduleConstantData id).module)
  | .module id =>
    some (match db.moduleParentModule id with
      | some p => Item.module p
      | none => Item.ingot (db.moduleData id).ingot)
  | .builtinFunction _ => none
  | .intrinsic _ => none
  | .object _ => none
  | .ingot _ => none

/-- Whether an item is an `Item::Ingot` (the first pattern of the `match` in
`Item::path`). -/
def Item.isIngot : Item → Bool
  | .ingot _ => true
  | _ => false

/-- `Item::path` (items.rs:139).  The Rust recursion is on the parent chain,
which an adversarial database can make cyclic, so the embedding takes a fuel
argument; `none` is "fuel exhausted". -/
def Item.path (db : Db) : Nat → Item → Option (List String)
  | 0, _ => none
  | fuel + 1, i =>
    match Item.parent db i with
    | none => some [Item.name db i]
    | some p =>
      if Item.isIngot p then some [Item.name db i]
      else (Item.path db fuel p).map (fun ps => ps ++ [Item.name db i])

/-- `Item::items` (items.rs:110).  `none` models a panic: the `todo!` for
`Item::Type`, and for `Item::Ingot` the `expect("missing root module")` in
`IngotId::items` (items.rs:399). -/
def Item.items (db : Db) : Item → Option (List (String × Item))
  | .ingot id =>
    match db.ingotRootModule id with
    | some m => some (db.moduleItemMap m).value
    | none => none
  | .module id => some (db.moduleItemMap id).value
  | .type _ => none
  | .genericType _ => some []
  | .event _ => some []
  | .function _ => some []
  | .constant _ => some []
  | .builtinFunction _ => some []
  | .intrinsic _ => some []
  | .object _ => some []

/-- `Item::resolve_path_segments` (items.rs:165).  `none` models a panic
propagated from `Item::items`. -/
def Item.resolve_path_segments (db : Db) :
    Item → List (Node String) → Option (Analysis (Option Item))
  | curr, [] => some ⟨some curr, []⟩
  | curr, node :: rest =>
    match Item.items db curr with
    | none => none
    | some items =>
      match imLookup items node.kind with
      | some item => Item.resolve_path_segments db item rest
      | none =>
        some ⟨none,
          [Diagnostic.spannedError "unresolved path item" node.span "not found"]⟩

/-- `ModuleId::name`. -/
def ModuleId.name (db : Db) (m : ModuleId) : String := (db.moduleData m).name

/-- `ModuleId::ingot`. -/
def ModuleId.ingot (db : Db) (m : ModuleId) : IngotId := (db.moduleData m).ingot

/-- `ModuleId::global_items` (items.rs:675): external deps as `Ingot` items,
chained with the prelude, collected; then (unless standalone) the ingot
itself under the name `ingot`. -/
def ModuleId.global_items (db : Db) (m : ModuleId) : List (String × Item) :=
  if (db.ingotData (ModuleId.ingot db m)).mode ≠ IngotMode.standaloneModule then
    imInsert
      (imCollect
        ((db.ingotExternalIngots (ModuleId.ingot db m)).map
            (fun p => (p.1, Item.ingot p.2))
          ++ std_prelude_items))
      "ingot" (Item.ingot (ModuleId.ingot db m))
  else
    imCollect
      ((db.ingotExternalIngots (ModuleId.ingot db m)).map
          (fun p => (p.1, Item.ingot p.2))
        ++ std_prelude_items)

/-- `ModuleId::non_used_internal_items` (items.rs:547): submodules chained
with the global items, collected. -/
def ModuleId.non_used_internal_items (db : Db) (m : ModuleId) :
    List (String × Item) :=
  imCollect
    ((db.moduleSubmodules m).map (fun s => (ModuleId.name db s, Item.module s))
      ++ ModuleId.global_items db m)

/-- `ModuleId::internal_items` (items.rs:559): submodules chained with the
global items and the module's own defined items, collected. -/
def ModuleId.internal_items (db : Db) (m : ModuleId) : List (String × Item) :=
  imCollect
    ((db.moduleSubmodules m).map (fun s => (ModuleId.name db s, Item.module s))
      ++ ModuleId.global_items db m
      ++ (db.moduleItemMap m).value)

/-- `ModuleId::resolve_path_non_used_internal` (items.rs:576).  The Rust code
indexes `segments[0]` unconditionally; an empty segment list is therefore a
panic, modelled as `none`. -/
def ModuleId.resolve_path_non_used_internal (db : Db) (m : ModuleId) :
    List (Node String) → Option (Analysis (Option Item))
  | [] => none
  | first :: rest =>
    match imLookup (ModuleId.non_used_internal_items db m) first.kind with
    | some curr => Item.resolve_path_segments db curr rest
    | none =>
      some ⟨none,
        [Diagnostic.spannedError "unresolved path item" first.span "not found"]⟩

/-- `ModuleId::resolve_path_internal` (items.rs:599); same panic on an empty
segment list. -/
def ModuleId.resolve_path_internal (db : Db) (m : ModuleId) :
    List (Node String) → Option (Analysis (Option Item))
  | [] => none
  | first :: rest =>
    match imLookup (ModuleId.internal_items db m) first.kind with
    | some curr => Item.resolve_path_segments db curr rest
    | none =>
      some ⟨none,
        [Diagnostic.spannedError "unresolved path item" first.span "not found"]⟩

/-- `FunctionId::sink_diagnostics` (items.rs:1123). -/
def FunctionId.sink_diagnostics (db : Db) (f : FunctionId) : List Diagnostic :=
  db.functionSignatureDiags f ++ db.functionBodyDiags f

/-- `ContractId::sink_diagnostics` (items.rs:997). -/
def ContractId.sink_diagnostics (db : Db) (c : ContractId) : List Diagnostic :=
  db.contractFieldMapDiags c
    ++ ((db.contractAllFields c).map db.contractFieldTypeDiags).flatten
    ++ db.contractEventMapDiags c
    ++ ((db.contractAllEvents c).map db.eventTypeDiags).flatten
    ++ db.contractInitFunctionDiags c
    ++ db.contractCallFunctionDiags c
    ++ db.contractFunctionMapDiags c
    ++ ((db.contractAllFunctions c).map (FunctionId.sink_diagnostics db)).flatten

/-- `StructId::sink_diagnostics` (items.rs:1263). -/
def StructId.sink_diagnostics (db : Db) (s : StructId) : List Diagnostic :=
  db.structFieldMapDiags s
    ++ ((db.structAllFields s).map db.structFieldTypeDiags).flatten
    ++ ((db.structAllFunctions s).map (FunctionId.sink_diagnostics db)).flatten

/-- `TypeDef::sink_diagnostics` (items.rs:834). -/
def TypeDef.sink_diagnostics (db : Db) : TypeDef → List Diagnostic
  | .alias id => db.typeAliasTypeDiags id
  | .struct id => StructId.sink_diagnostics db id
  | .contract id => ContractId.sink_diagnostics db id
  | .primitive _ => []

/-- The root-module file name demanded by an ingot mode (the `match` inside
`IngotId::sink_diagnostics`, items.rs:411); `none` is the
`unreachable!()` arm for standalone modules. -/
def missing_module_file_name : IngotMode → Option String
  | .lib => some "lib"
  | .main => some "main"
  | .standaloneModule => none

/-- The "missing root module" error (items.rs:416). -/
def missing_root_diag (ingotName fileName : String) : Diagnostic :=
  Diagnostic.simpleError
    ("The ingot named \"" ++ ingotName ++ "\" is missing a `" ++ fileName
      ++ "` module. \nPlease add a `src/" ++ fileName
      ++ ".fe` file to the base directory.")

/-- Sequences a list of optional diagnostic lists; `none` (a panic below)
propagates. -/
def collectDiags : List (Option (List Diagnostic)) → Option (List Diagnostic)
  | [] => some []
  | none :: _ => none
  | some d :: rest => (collectDiags rest).map (fun ds => d ++ ds)

/-- `Item::sink_diagnostics` (items.rs:202), with `ModuleId::sink_diagnostics`
(items.rs:706) and `IngotId::sink_diagnostics` (items.rs:409) inlined for the
`Module` and `Ingot` arms.  The recursion through module/ingot items is not
structurally bounded for an arbitrary database, so the embedding takes a fuel
argument; `none` is "fuel exhausted" or a panic (the `unreachable!()` for a
standalone ingot without a root module). -/
def Item.sink_diagnostics (db : Db) : Nat → Item → Option (List Diagnostic)
  | _, .type td => some (TypeDef.sink_diagnostics db td)
  | _, .event id => some (db.eventTypeDiags id)
  | _, .function id => some (FunctionId.sink_diagnostics db id)
  | _, .genericType _ => some []
  | _, .builtinFunction _ => some []
  | _, .intrinsic _ => some []
  | _, .object _ => some []
  | _, .constant id => some (db.moduleConstantTypeDiags id)
  | 0, .ingot _ => none
  | 0, .module _ => none
  | fuel + 1, .ingot id =>
    match
      (match db.ingotRootModule id with
        | some _ => some ([] : List Diagnostic)
        | none =>
          match missing_module_file_name (db.ingotData id).mode with
          | some fileName =>
            some [missing_root_diag (db.ingotData id).name fileName]
          | none => none) with
    | none => none
    | some missing =>
      match
        collectDiags ((db.ingotModules id).map
          (fun m => Item.sink_diagnostics db fuel (Item.module m))) with
      | none => none
      | some rest => some (missing ++ rest)
  | fuel + 1, .module id =>
    let data := db.moduleData id
    let parseDiags :=
      match data.source with
      | .file _ => (db.moduleParse id).diagnostics
      | _ => []
    let ast :=
      match data.source with
      | .lowered _ a => a
      | _ => (db.moduleParse id).value
    let pragmaDiags :=
      (ast.body.map (fun s =>
        match s with
        | .pragma node => (db.checkPragmaVersion node).toList
        | _ => [])).flatten
    let dupDiags := (db.moduleItemMap id).diagnostics
    match
      collectDiags ((db.moduleAllItems id).map
        (Item.sink_diagnostics db fuel)) with
    | none => none
    | some itemDiags =>
      some (parseDiags ++ pragmaDiags ++ dupDiags ++ itemDiags)

/-- `DepLocality` (items.rs:1377): edge labels of the dependency graph. -/
inductive DepLocality
  | Local
  | External
deriving DecidableEq, Repr

/-- `DepGraph = petgraph::graphmap::DiGraphMap<Item, DepLocality>`, modelled
by its node list and labelled edge list, both in insertion order (a
`GraphMap` stores nodes and edges in `IndexMap`s, so both iterate in
insertion order). -/
structure DepGraph where
  nodes : List Item
  edges : List (Item × Item × DepLocality)
deriving DecidableEq, Repr

def DepGraph.empty : DepGraph := ⟨[], []⟩

/-- `GraphMap::add_node`: appended on first insertion, otherwise unchanged. -/
def DepGraph.add_node (g : DepGraph) (n : Item) : DepGraph :=
  if n ∈ g.nodes then g else { g with nodes := g.nodes ++ [n] }

/-- `GraphMap::add_edge`: inserts missing endpoints, then inserts or updates
the `(a, b)` edge (weight replaced, position kept). -/
def DepGraph.add_edge (g : DepGraph) (a b : Item) (w : DepLocality) : DepGraph :=
  let g1 := (g.add_node a).add_node b
  if g1.edges.any (fun e => decide (e.1 = a ∧ e.2.1 = b)) then
    { g1 with
      edges := g1.edges.map (fun e => if e.1 = a ∧ e.2.1 = b then (a, b, w) else e) }
  else { g1 with edges := g1.edges ++ [(a, b, w)] }

/-- Outgoing neighbors of `n` in the unfiltered graph
(`GraphMap::neighbors`), in edge-insertion order. -/
def DepGraph.neighborsAll (g : DepGraph) (n : Item) : List Item :=
  (g.edges.filter (fun e => decide (e.1 = n))).map (fun e => e.2.1)

/-- Outgoing neighbors of `n` through `Local`-labelled edges only: the
neighbors of the `EdgeFiltered` view built in `walk_local_dependencies`
(filter `|(_, _, loc)| *loc == DepLocality::Local`). -/
def DepGraph.neighborsLocal (g : DepGraph) (n : Item) : List Item :=
  (g.edges.filter
    (fun e => decide (e.1 = n ∧ e.2.2 = DepLocality.Local))).map (fun e => e.2.1)

/-- State of a `petgraph::visit::Bfs`: discovered set (as an insertion-order
list) and pending queue. -/
structure BfsState where
  discovered : List Item
  queue : List Item
deriving DecidableEq, Repr

/-- One `Bfs::next(graph)` step: pop the front node, mark-and-enqueue its
not-yet-discovered neighbors (in neighbor order), return the popped node. -/
def bfs_next (nbrs : Item → List Item) : BfsState → Option (Item × BfsState)
  | ⟨_, []⟩ => none
  | ⟨disc, n :: rest⟩ =>
    let st :=
      (nbrs n).foldl
        (fun (acc : List Item × List Item) m =>
          if m ∈ acc.1 then acc else (acc.1 ++ [m], acc.2 ++ [m]))
        (disc, rest)
    some (n, ⟨st.1, st.2⟩)

/-- Runs `Bfs::next` to exhaustion, collecting the visit order.  Fuel bounds
the number of steps; every call below supplies enough fuel for the loop to
reach `none` first. -/
def bfs_run (nbrs : Item → List Item) : Nat → BfsState → List Item
  | 0, _ => []
  | fuel + 1, st =>
    match bfs_next nbrs st with
    | none => []
    | some (n, st') => n :: bfs_run nbrs fuel st'

/-- `walk_local_dependencies` (items.rs:1383), with the visitor modelled as
collecting the visited nodes in order.  `Bfs::new` is given the
`EdgeFiltered` graph (which only affects the initial state: root discovered
and queued), but each `bfs.next(&graph)` call receives the *unfiltered*
`graph`, so the steps follow every edge, not only `Local` ones. -/
def walk_local_dependencies (g : DepGraph) (root : Item) : List Item :=
  bfs_run (g.neighborsAll) (g.nodes.length + g.edges.length + 2) ⟨[root], [root]⟩

/-- Modelled from the spec: the traversal `walk_local_dependencies` is
specified to perform — a BFS whose steps also use the `EdgeFiltered` view,
so only `Local`-labelled edges are followed. -/
def walk_local_dependencies_spec (g : DepGraph) (root : Item) : List Item :=
  bfs_run (g.neighborsLocal) (g.nodes.length + g.edges.length + 2) ⟨[root], [root]⟩

/-- `DepGraphWrapper::eq` (items.rs:1367):
`self.0.all_edges().eq(other.0.all_edges()) && self.0.nodes().eq(other.0.nodes())`.
`Iterator::eq` compares the two iterations as *sequences*, in insertion
order. -/
def depGraphWrapperEq (g h : DepGraph) : Bool :=
  decide (g.edges = h.edges) && decide (g.nodes = h.nodes)

/-- An inert database: every query yields an empty or default answer.  The
concrete examples below override individual fields. -/
def emptyDb : Db where
  ingotData := fun _ => ⟨"", IngotMode.main, none, ""⟩
  ingotModules := fun _ => []
  ingotExternalIngots := fun _ => []
  ingotRootModule := fun _ => none
  moduleData := fun _ => ⟨"", ⟨0⟩, ModuleSource.dir ""⟩
  moduleParse := fun _ => ⟨⟨[]⟩, []⟩
  moduleItemMap := fun _ => ⟨[], []⟩
  moduleAllItems := fun _ => []
  moduleSubmodules := fun _ => []
  moduleParentModule := fun _ => none
  checkPragmaVersion := fun _ => none
  typeAliasData := fun _ => ⟨"", ⟨0⟩⟩
  typeAliasTypeDiags := fun _ => []
  contractData := fun _ => ⟨"", ⟨0⟩⟩
  contractFieldMapDiags := fun _ => []
  contractAllFields := fun _ => []
  contractFieldTypeDiags := fun _ => []
  contractEventMapDiags := fun _ => []
  contractAllEvents := fun _ => []
  contractInitFunctionDiags := fun _ => []
  contractCallFunctionDiags := fun _ => []
  contractFunctionMapDiags := fun _ => []
  contractAllFunctions := fun _ => []
  structData := fun _ => ⟨"", ⟨0⟩⟩
  structFieldMapDiags := fun _ => []
  structAllFields := fun _ => []
  structFieldTypeDiags := fun _ => []
  structAllFunctions := fun _ => []
  eventData := fun _ => ⟨"", ⟨0⟩, none⟩
  eventTypeDiags := fun _ => []
  functionData := fun _ => ⟨"", ⟨0⟩, none⟩
  functionSignatureDiags := fun _ => []
  functionBodyDiags := fun _ => []
  moduleConstantData := fun _ => ⟨"", ⟨0⟩⟩
  moduleConstantTypeDiags := fun _ => []

/-- A `Main` ingot named `foo` with no root module and a single module whose
parse produced one diagnostic (the scenario of the missing-root special
case). -/
def dbC1 : Db :=
  { emptyDb with
    ingotData := fun _ => ⟨"foo", IngotMode.main, none, "src"⟩
    ingotModules := fun _ => [⟨5⟩]
    moduleData := fun _ => ⟨"other", ⟨0⟩, ModuleSource.file 0⟩
    moduleParse := fun _ => ⟨⟨[]⟩, [Diagnostic.simpleError "parse error"]⟩ }

/-- A database whose modules each define a single item `x`. -/
def dbC4 : Db :=
  { emptyDb with
    moduleItemMap := fun _ => ⟨[("x", Item.constant ⟨1⟩)], []⟩ }

/-- A database whose only ingot has one external dependency named `bool`,
colliding with the prelude. -/
def dbC6 : Db :=
  { emptyDb with ingotExternalIngots := fun _ => [("bool", ⟨7⟩)] }

/-- A database whose only ingot has one external dependency named `mydep`. -/
def dbC6w : Db :=
  { emptyDb with ingotExternalIngots := fun _ => [("mydep", ⟨3⟩)] }

/-- A database with a module `mymod` (whose parent is its ingot) containing a
struct `MyStruct`. -/
def dbC7 : Db :=
  { emptyDb with
    moduleData := fun _ => ⟨"mymod", ⟨0⟩, ModuleSource.file 0⟩
    structData := fun _ => ⟨"MyStruct", ⟨0⟩⟩ }

/-- A database with a module whose submodule `foo` collides with a declared
item `foo`. -/
def dbC10 : Db :=
  { emptyDb with
    moduleSubmodules := fun _ => [⟨1⟩]
    moduleData := fun m =>
      if m = ⟨1⟩ then ⟨"foo", ⟨0⟩, ModuleSource.dir "foo"⟩
      else ⟨"m", ⟨0⟩, ModuleSource.dir ""⟩
    moduleItemMap := fun _ => ⟨[("foo", Item.constant ⟨7⟩)], []⟩ }

def itemA : Item := Item.ingot ⟨0⟩

def itemB : Item := Item.ingot ⟨1⟩

/-- The graph with the single edge `itemA → itemB`, labelled `External`. -/
def gExternal : DepGraph :=
  DepGraph.empty.add_edge itemA itemB DepLocality.External

/-- Nodes `itemA`, `itemB` inserted in that order, no edges. -/
def gNodesAB : DepGraph := (DepGraph.empty.add_node itemA).add_node itemB

/-- Nodes `itemB`, `itemA` inserted in that order, no edges. -/
def gNodesBA : DepGraph := (DepGraph.empty.add_node itemB).add_node itemA

/-- `AncestorChain db i ns`: the parent chain of `i` terminates (at a
parentless item or at an ingot), and `ns` is the list of names along the
chain in top-down order, the terminating ingot elided. -/
inductive AncestorChain (db : Db) : Item → List String → Prop
  | baseNone (i : Item) (hp : Item.parent db i = none) :
      AncestorChain db i [Item.name db i]
  | baseIngot (i : Item) (g : IngotId)
      (hp : Item.parent db i = some (Item.ingot g)) :
      AncestorChain db i [Item.name db i]
  | step (i p : Item) (ns : List String) (hp : Item.parent db i = some p)
      (hni : Item.isIngot p = false) (hc : AncestorChain db p ns) :
      AncestorChain db i (ns ++ [Item.name db i])

/-- `ResolvesTo db start segs tgt`: every segment of `segs` is found in turn
starting from `start`, ending at `tgt`. -/
inductive ResolvesTo (db : Db) : Item → List (Node String) → Item → Prop
  | nil (i : Item) : ResolvesTo db i [] i
  | cons (i j tgt : Item) (s : Node String) (rest : List (Node String))
      (items : List (String × Item))
      (hitems : Item.items db i = some items)
      (hfind : imLookup items s.kind = some j)
      (h : ResolvesTo db j rest tgt) : ResolvesTo db i (s :: rest) tgt

theorem imLookup_imInsert {α β : Type} [DecidableEq α]
    (m : List (α × β)) (k k' : α) (v : β) :
    imLookup (imInsert m k v) k' = if k' = k then some v else imLookup m k' := by
  induction m with
  | nil =>
    simp only [imInsert, imLookup]
    by_cases h : k' = k
    · subst h; simp
    · rw [if_neg (fun hc : k = k' => h hc.symm), if_neg h]
  | cons p t ih =>
    simp only [imInsert]
    by_cases hp : p.1 = k
    · simp only [if_pos hp, imLookup]
      by_cases h : k' = k
      · subst h; simp
      · rw [if_neg (fun hc : k = k' => h hc.symm), if_neg h,
          if_neg (fun hc : p.1 = k' => h (hc.symm.trans hp))]
    · simp only [if_neg hp, imLookup, ih]
      by_cases hq : p.1 = k'
      · have h : ¬ k' = k := fun hc => hp (hq.trans hc)
        rw [if_pos hq, if_neg h, if_pos hq]
      · by_cases h : k' = k
        · subst h; simp [hq]
        · simp [hq, h]

theorem imLookup_foldl_imInsert {α β : Type} [DecidableEq α]
    (l : List (α × β)) (m : List (α × β)) (k : α) :
    imLookup (l.foldl (fun m p => imInsert m p.1 p.2) m) k =
      match lastLookup l k with
      | some v => some v
      | none => imLookup m k := by
  induction l generalizing m with
  | nil => simp [lastLookup]
  | cons p t ih =>
    simp only [List.foldl_cons, lastLookup]
    rw [ih]
    cases h : lastLookup t k with
    | some v => simp
    | none =>
      simp only [imLookup_imInsert]
      by_cases hk : k = p.1
      · simp [hk]
      · have hq : ¬ p.1 = k := fun hc => hk hc.symm
        simp [hk, hq]

theorem imLookup_imCollect {α β : Type} [DecidableEq α]
    (l : List (α × β)) (k : α) :
    imLookup (imCollect l) k = lastLookup l k := by
  unfold imCollect
  rw [imLookup_foldl_imInsert]
  cases lastLookup l k <;> simp [imLookup]

theorem lastLookup_append {α β : Type} [DecidableEq α]
    (xs ys : List (α × β)) (k : α) :
    lastLookup (xs ++ ys) k =
      match lastLookup ys k with
      | some v => some v
      | none => lastLookup xs k := by
  induction xs with
  | nil =>
    cases h : lastLookup ys k <;> simp [lastLookup, h]
  | cons p t ih =>
    rw [List.cons_append]
    simp only [lastLookup]
    rw [ih]
    cases h : lastLookup ys k <;> cases h2 : lastLookup t k <;> simp

theorem imLookup_eq_none_iff {α β : Type} [DecidableEq α]
    (l : List (α × β)) (k : α) :
    imLookup l k = none ↔ k ∉ imKeys l := by
  induction l with
  | nil => simp [imLookup, imKeys]
  | cons p t ih =>
    simp only [imLookup, imKeys, List.map_cons, List.mem_cons] at ih ⊢
    by_cases hp : p.1 = k
    · subst hp; simp
    · have hk : ¬ k = p.1 := fun hc => hp hc.symm
      simp [hp, hk, ih]

theorem lastLookup_eq_none_iff {α β : Type} [DecidableEq α]
    (l : List (α × β)) (k : α) :
    lastLookup l k = none ↔ k ∉ imKeys l := by
  induction l with
  | nil => simp [lastLookup, imKeys]
  | cons p t ih =>
    simp only [lastLookup, imKeys, List.map_cons, List.mem_cons] at ih ⊢
    cases h : lastLookup t k with
    | some v =>
      have hmem : k ∈ t.map Prod.fst := by
        by_contra hc
        rw [ih.mpr hc] at h
        exact Option.noConfusion h
      simp [hmem]
    | none =>
      have hmem : k ∉ t.map Prod.fst := ih.mp h
      by_cases hp : p.1 = k
      · subst hp; simp
      · have hk : ¬ k = p.1 := fun hc => hp hc.symm
        simp [hp, hk, hmem]

theorem lastLookup_eq_imLookup_of_nodup {α β : Type} [DecidableEq α]
    (l : List (α × β)) (k : α) (h : (imKeys l).Nodup) :
    lastLookup l k = imLookup l k := by
  induction l with
  | nil => simp [lastLookup, imLookup]
  | cons p t ih =>
    simp only [imKeys, List.map_cons, List.nodup_cons] at h
    obtain ⟨hnm, hnd⟩ := h
    by_cases hp : p.1 = k
    · have hnone : lastLookup t k = none := by
        rw [lastLookup_eq_none_iff]
        exact fun hc => hnm (by simpa [imKeys, hp] using hc)
      simp [lastLookup, imLookup, hnone, hp]
    · simp only [lastLookup, imLookup, if_neg hp]
      rw [ih (by simpa [imKeys] using hnd)]
      cases hv : imLookup t k <;> simp [hp]

theorem lastLookup_map_value {α β γ : Type} [DecidableEq α]
    (l : List (α × β)) (f : β → γ) (k : α) :
    lastLookup (l.map (fun p => (p.1, f p.2))) k = (lastLookup l k).map f := by
  induction l with
  | nil => simp [lastLookup]
  | cons p t ih =>
    simp only [List.map_cons, lastLookup, ih]
    cases lastLookup t k <;> by_cases hp : p.1 = k <;> simp [hp]

theorem mem_imKeys_imCollect {α β : Type} [DecidableEq α]
    (l : List (α × β)) (k : α) :
    k ∈ imKeys (imCollect l) ↔ k ∈ imKeys l := by
  rw [← not_iff_not, ← imLookup_eq_none_iff, ← lastLookup_eq_none_iff,
    imLookup_imCollect]

theorem std_prelude_keys_nodup : (imKeys std_prelude_items).Nodup := by decide

theorem ingot_not_in_prelude : imLookup std_prelude_items "ingot" = none := by
  decide

/-- Lookup in the deps-then-prelude map built inside `global_items`: a prelude
binding wins, otherwise the last dependency with that name (as an `Ingot`
item). -/
theorem imLookup_global_base (db : Db) (m : ModuleId) (n : String) :
    imLookup
      (imCollect
        ((db.ingotExternalIngots (ModuleId.ingot db m)).map
            (fun p => (p.1, Item.ingot p.2))
          ++ std_prelude_items)) n =
      match imLookup std_prelude_items n with
      | some v => some v
      | none =>
        (lastLookup (db.ingotExternalIngots (ModuleId.ingot db m)) n).map
          Item.ingot := by
  rw [imLookup_imCollect, lastLookup_append,
    lastLookup_eq_imLookup_of_nodup std_prelude_items n std_prelude_keys_nodup,
    lastLookup_map_value]
  cases imLookup std_prelude_items n <;> rfl

/-- C9: for every module, `resolve_path_internal` and
`resolve_path_non_used_internal` panic on an empty segment list (they index
`segments[0]` unconditionally), while `resolve_path_segments` itself accepts
an empty list and returns the starting item with no diagnostics. -/
theorem c9_empty_path_panics (db : Db) (m : ModuleId) :
    ModuleId.resolve_path_internal db m [] = none ∧
    ModuleId.resolve_path_non_used_internal db m [] = none ∧
    ∀ i : Item, Item.resolve_path_segments db i [] = some ⟨some i, []⟩ :=
  ⟨rfl, rfl, fun _ => rfl⟩

/-- C3 counterexample: for a `Type` item (here a struct), `items()` does not
return an empty map — the `todo!("cannot access items in types yet")` panics
(modelled as `none`). -/
theorem c3_counterexample :
    Item.items emptyDb (Item.type (TypeDef.struct ⟨0⟩)) ≠ some [] := by decide

/-- C3 (amended): `items()` returns an empty map for every variant other than
`Ingot`, `Module` and `Type`; for `Type` variants it panics (`todo!`); and a
path that traverses into an empty-items item yields `None` with the single
"unresolved path item / not found" diagnostic. -/
theorem c3_items_empty_except_types (db : Db) :
    (∀ g, Item.items db (Item.genericType g) = some []) ∧
    (∀ e, Item.items db (Item.event e) = some []) ∧
    (∀ f, Item.items db (Item.function f) = some []) ∧
    (∀ c, Item.items db (Item.constant c) = some []) ∧
    (∀ b, Item.items db (Item.builtinFunction b) = some []) ∧
    (∀ i, Item.items db (Item.intrinsic i) = some []) ∧
    (∀ o, Item.items db (Item.object o) = some []) ∧
    (∀ td, Item.items db (Item.type td) = none) ∧
    (∀ (i : Item) (s : Node String) (rest : List (Node String)),
      Item.items db i = some [] →
      Item.resolve_path_segments db i (s :: rest) =
        some ⟨none,
          [Diagnostic.spannedError "unresolved path item" s.span "not found"]⟩) := by
  refine ⟨fun _ => rfl, fun _ => rfl, fun _ => rfl, fun _ => rfl, fun _ => rfl,
    fun _ => rfl, fun _ => rfl, fun _ => rfl, ?_⟩
  intro i s rest h
  simp [Item.resolve_path_segments, h, imLookup]

/-- C3 witness: traversal into an `Event` item (empty items) yields the
"not found" analysis. -/
theorem c3_witness :
    Item.resolve_path_segments emptyDb (Item.event ⟨0⟩)
        [⟨"x", ⟨0, 1⟩⟩] =
      some ⟨none,
        [Diagnostic.spannedError "unresolved path item" ⟨0, 1⟩ "not found"]⟩ :=
  (c3_items_empty_except_types emptyDb).2.2.2.2.2.2.2.2 (Item.event ⟨0⟩)
    ⟨"x", ⟨0, 1⟩⟩ [] rfl

/-- C4 counterexample: started from a `Type` item, `resolve_path_segments`
panics (the `todo!` in `items()`) instead of returning `None` with a
"not found" diagnostic. -/
theorem c4_counterexample :
    Item.resolve_path_segments emptyDb (Item.type (TypeDef.primitive Base.bool))
        [⟨"x", ⟨0, 1⟩⟩] = none ∧
    ∀ a : Analysis (Option Item),
      Item.resolve_path_segments emptyDb
          (Item.type (TypeDef.primitive Base.bool)) [⟨"x", ⟨0, 1⟩⟩] ≠ some a :=
  ⟨rfl, fun _ h => Option.noConfusion h⟩

/-- C4 (amended): whenever `resolve_path_segments` returns (does not panic in
`items()`), it either found every segment in turn and returns the last item
with no diagnostics, or returns `None` with exactly one "unresolved path
item / not found" diagnostic at the span of a failing segment; an empty
segment list always returns the starting item (see `c9_empty_path_panics`
for that equation, reproved here through the hypothesis-free `nil` case). -/
theorem c4_resolve_path_dichotomy (db : Db) (start : Item)
    (segs : List (Node String)) (a : Analysis (Option Item))
    (h : Item.resolve_path_segments db start segs = some a) :
    (∃ tgt, a = ⟨some tgt, []⟩ ∧ ResolvesTo db start segs tgt) ∨
    (∃ s, s ∈ segs ∧
      a = ⟨none,
        [Diagnostic.spannedError "unresolved path item" s.span "not found"]⟩) := by
  induction segs generalizing start with
  | nil =>
    simp only [Item.resolve_path_segments] at h
    exact Or.inl ⟨start, (Option.some.inj h).symm, ResolvesTo.nil start⟩
  | cons s rest ih =>
    simp only [Item.resolve_path_segments] at h
    cases hitems : Item.items db start with
    | none =>
      rw [hitems] at h
      exact Option.noConfusion h
    | some items =>
      rw [hitems] at h
      simp only at h
      cases hfind : imLookup items s.kind with
      | none =>
        rw [hfind] at h
        simp only at h
        exact Or.inr ⟨s, List.mem_cons_self s rest, (Option.some.inj h).symm⟩
      | some j =>
        rw [hfind] at h
        simp only at h
        rcases ih j h with ⟨tgt, ha, hres⟩ | ⟨s', hmem, ha⟩
        · exact Or.inl
            ⟨tgt, ha, ResolvesTo.cons start j tgt s rest items hitems hfind hres⟩
        · exact Or.inr ⟨s', List.mem_cons_of_mem s hmem, ha⟩

/-- C4 witness: resolving the single segment `x` from a module that declares
`x` lands in the first disjunct. -/
theorem c4_witness :
    (∃ tgt, (⟨some (Item.constant ⟨1⟩), []⟩ : Analysis (Option Item)) =
        ⟨some tgt, []⟩ ∧
      ResolvesTo dbC4 (Item.module ⟨0⟩) [⟨"x", ⟨0, 1⟩⟩] tgt) ∨
    (∃ s, s ∈ [(⟨"x", ⟨0, 1⟩⟩ : Node String)] ∧
      (⟨some (Item.constant ⟨1⟩), []⟩ : Analysis (Option Item)) =
        ⟨none,
          [Diagnostic.spannedError "unresolved path item" s.span "not found"]⟩) :=
  c4_resolve_path_dichotomy dbC4 (Item.module ⟨0⟩) [⟨"x", ⟨0, 1⟩⟩]
    ⟨some (Item.constant ⟨1⟩), []⟩ rfl

/-- C2: on the graph whose only edge is `itemA → itemB` labelled `External`,
`walk_local_dependencies` visits `itemB` — its BFS steps on the unfiltered
graph, following the `External` edge — whereas the specified traversal (BFS
stepping on the `EdgeFiltered` view, `walk_local_dependencies_spec`) visits
only `itemA`. -/
theorem c2_walk_follows_external_edge :
    walk_local_dependencies gExternal itemA = [itemA, itemB] ∧
    walk_local_dependencies_spec gExternal itemA = [itemA] ∧
    gExternal.neighborsLocal itemA = [] := by
  refine ⟨rfl, rfl, rfl⟩

/-- C8 counterexample: two graphs with the same node set (and the same — empty
— edge set), built by inserting the nodes in opposite orders, compare
unequal: `DepGraphWrapper` equality compares the iteration *sequences*, not
the sets. -/
theorem c8_counterexample :
    depGraphWrapperEq gNodesAB gNodesBA = false ∧
    gNodesAB.nodes.Perm gNodesBA.nodes ∧
    gNodesAB.edges = gNodesBA.edges := by decide

/-- C8 (amended): `DepGraphWrapper` equality holds iff the two graphs have the
same node sequence and the same labelled-edge sequence, in insertion/iteration
order. -/
theorem c8_wrapper_eq_iff (g h : DepGraph) :
    depGraphWrapperEq g h = true ↔ g.edges = h.edges ∧ g.nodes = h.nodes := by
  simp [depGraphWrapperEq]

/-- C5: for every module, the key set of `internal_items` contains the key set
of `non_used_internal_items`, which contains the key set of `global_items`
(the claim's `items(m)` is the full in-module scope `internal_items`, the
symbol its source cites). -/
theorem c5_scope_key_chain (db : Db) (m : ModuleId) :
    imKeys (ModuleId.global_items db m) ⊆
      imKeys (ModuleId.non_used_internal_items db m) ∧
    imKeys (ModuleId.non_used_internal_items db m) ⊆
      imKeys (ModuleId.internal_items db m) := by
  constructor
  · intro k hk
    unfold ModuleId.non_used_internal_items
    rw [mem_imKeys_imCollect]
    simp only [imKeys, List.map_append, List.mem_append]
    right
    exact hk
  · intro k hk
    unfold ModuleId.non_used_internal_items at hk
    unfold ModuleId.internal_items
    rw [mem_imKeys_imCollect] at hk ⊢
    simp only [imKeys, List.map_append, List.mem_append] at hk ⊢
    tauto

/-- C5 witness: the chain instantiated at a concrete module. -/
theorem c5_witness :
    imKeys (ModuleId.global_items emptyDb ⟨0⟩) ⊆
      imKeys (ModuleId.non_used_internal_items emptyDb ⟨0⟩) ∧
    imKeys (ModuleId.non_used_internal_items emptyDb ⟨0⟩) ⊆
      imKeys (ModuleId.internal_items emptyDb ⟨0⟩) :=
  c5_scope_key_chain emptyDb ⟨0⟩

/-- C10: a name declared in the module wins over a submodule or global
binding of the same name in `internal_items` (the defined items are chained
last into the collect, so their value overwrites), and `internal_items`
itself carries no diagnostics channel at all (it returns a bare map). -/
theorem c10_declared_item_overrides (db : Db) (m : ModuleId) (n : String)
    (v : Item)
    (hnd : (imKeys (db.moduleItemMap m).value).Nodup)
    (hdecl : imLookup (db.moduleItemMap m).value n = some v)
    (_hglob : n ∈ imKeys (ModuleId.non_used_internal_items db m)) :
    imLookup (ModuleId.internal_items db m) n = some v := by
  unfold ModuleId.internal_items
  rw [imLookup_imCollect, lastLookup_append,
    lastLookup_eq_imLookup_of_nodup _ _ hnd, hdecl]

/-- C10 witness: a module whose submodule `foo` collides with a declared
constant `foo`; `internal_items` maps `foo` to the constant. -/
theorem c10_witness :
    imLookup (ModuleId.internal_items dbC10 ⟨0⟩) "foo" =
      some (Item.constant ⟨7⟩) :=
  c10_declared_item_overrides dbC10 ⟨0⟩ "foo" (Item.constant ⟨7⟩)
    (by decide) (by decide) (by decide)

/-- C6 counterexample: an external dependency named `bool` is shadowed by the
prelude in `global_items` (the prelude is chained after the deps into the
collect), so the dependency name is not mapped to its `Ingot` item. -/
theorem c6_counterexample :
    imLookup (dbC6.ingotExternalIngots (ModuleId.ingot dbC6 ⟨0⟩)) "bool" =
      some ⟨7⟩ ∧
    imLookup (ModuleId.global_items dbC6 ⟨0⟩) "bool" =
      some (Item.type (TypeDef.primitive Base.bool)) ∧
    Item.type (TypeDef.primitive Base.bool) ≠ Item.ingot ⟨7⟩ := by decide

/-- C6 (amended): `global_items` maps an external dependency name to its
`Ingot` item provided the name does not collide with a prelude name or (for
the override) with `ingot`; every prelude entry is always present (the
prelude, a constant map, shadows deps); and the name `ingot` is bound to the
module's own ingot exactly when the mode is not `StandaloneModule` (for a
standalone module, `ingot` is unbound unless a dependency happens to carry
that name). -/
theorem c6_global_items_amended :
    (∀ (db : Db) (m : ModuleId) (n : String) (g : IngotId),
      (imKeys (db.ingotExternalIngots (ModuleId.ingot db m))).Nodup →
      imLookup (db.ingotExternalIngots (ModuleId.ingot db m)) n = some g →
      imLookup std_prelude_items n = none →
      n ≠ "ingot" →
      imLookup (ModuleId.global_items db m) n = some (Item.ingot g)) ∧
    (∀ (db : Db) (m : ModuleId) (k : String) (v : Item),
      imLookup std_prelude_items k = some v →
      imLookup (ModuleId.global_items db m) k = some v) ∧
    (∀ (db : Db) (m : ModuleId),
      ((db.ingotData (ModuleId.ingot db m)).mode ≠ IngotMode.standaloneModule →
        imLookup (ModuleId.global_items db m) "ingot" =
          some (Item.ingot (ModuleId.ingot db m))) ∧
      ((db.ingotData (ModuleId.ingot db m)).mode = IngotMode.standaloneModule →
        imLookup (db.ingotExternalIngots (ModuleId.ingot db m)) "ingot" = none →
        imLookup (ModuleId.global_items db m) "ingot" = none)) := by
  refine ⟨?_, ?_, ?_⟩
  · intro db m n g hnd hdep hpre hne
    have hbase :
        imLookup
          (imCollect
            ((db.ingotExternalIngots (ModuleId.ingot db m)).map
                (fun p => (p.1, Item.ingot p.2))
              ++ std_prelude_items)) n = some (Item.ingot g) := by
      rw [imLookup_global_base db m n, hpre,
        lastLookup_eq_imLookup_of_nodup _ _ hnd, hdep]
      rfl
    unfold ModuleId.global_items
    split
    · rw [imLookup_imInsert, if_neg hne]
      exact hbase
    · exact hbase
  · intro db m k v h
    have hbase :
        imLookup
          (imCollect
            ((db.ingotExternalIngots (ModuleId.ingot db m)).map
                (fun p => (p.1, Item.ingot p.2))
              ++ std_prelude_items)) k = some v := by
      rw [imLookup_global_base db m k, h]
    have hk : k ≠ "ingot" := by
      intro hc
      subst hc
      rw [ingot_not_in_prelude] at h
      exact Option.noConfusion h
    unfold ModuleId.global_items
    split
    · rw [imLookup_imInsert, if_neg hk]
      exact hbase
    · exact hbase
  · intro db m
    constructor
    · intro hmode
      unfold ModuleId.global_items
      rw [if_pos hmode, imLookup_imInsert, if_pos rfl]
    · intro hmode hdep
      unfold ModuleId.global_items
      rw [if_neg (not_not_intro hmode), imLookup_global_base db m,
        ingot_not_in_prelude]
      have hlast :
          lastLookup (db.ingotExternalIngots (ModuleId.ingot db m)) "ingot" =
            none := by
        rw [lastLookup_eq_none_iff]
        exact (imLookup_eq_none_iff _ _).mp hdep
      rw [hlast]
      rfl

/-- C6 witness: a non-colliding dependency name resolves to its ingot, the
prelude entry `bool` is present, and `ingot` is bound to the module's own
ingot in a `Main`-mode ingot. -/
theorem c6_witness :
    imLookup (ModuleId.global_items dbC6w ⟨0⟩) "mydep" =
      some (Item.ingot ⟨3⟩) ∧
    imLookup (ModuleId.global_items dbC6w ⟨0⟩) "bool" =
      some (Item.type (TypeDef.primitive Base.bool)) ∧
    imLookup (ModuleId.global_items dbC6w ⟨0⟩) "ingot" =
      some (Item.ingot ⟨0⟩) :=
  ⟨c6_global_items_amended.1 dbC6w ⟨0⟩ "mydep" ⟨3⟩ (by decide) (by decide)
      (by decide) (by decide),
    c6_global_items_amended.2.1 dbC6w ⟨0⟩ "bool"
      (Item.type (TypeDef.primitive Base.bool)) (by decide),
    (c6_global_items_amended.2.2 dbC6w ⟨0⟩).1 (by decide)⟩

/-- C7: for every item whose parent chain terminates (at a parentless item or
at an ingot), `path` computes exactly the names along the chain in top-down
order with the terminating ingot elided, given at least chain-length fuel. -/
theorem c7_path_of_parent_chain (db : Db) (i : Item) (ns : List String)
    (h : AncestorChain db i ns) :
    ∀ fuel, ns.length ≤ fuel → Item.path db fuel i = some ns := by
  induction h with
  | baseNone i hp =>
    intro fuel hf
    cases fuel with
    | zero => simp at hf
    | succ f => simp [Item.path, hp]
  | baseIngot i g hp =>
    intro fuel hf
    cases fuel with
    | zero => simp at hf
    | succ f => simp [Item.path, hp, Item.isIngot]
  | step i p ns hp hni hc ih =>
    intro fuel hf
    cases fuel with
    | zero => simp at hf
    | succ f =>
      have hlen : ns.length ≤ f := by
        simp only [List.length_append, List.length_cons, List.length_nil] at hf
        omega
      simp [Item.path, hp, hni, ih f hlen]

/-- C7 witness: a struct in a module whose parent is the ingot has the
two-segment path, computed by `path` with fuel 2. -/
theorem c7_witness :
    Item.path dbC7 2 (Item.type (TypeDef.struct ⟨0⟩)) =
      some ["mymod", "MyStruct"] := by
  have hbase : AncestorChain dbC7 (Item.module ⟨0⟩) ["mymod"] :=
    AncestorChain.baseIngot (Item.module ⟨0⟩) ⟨0⟩ rfl
  have hchain :
      AncestorChain dbC7 (Item.type (TypeDef.struct ⟨0⟩))
        ["mymod", "MyStruct"] :=
    AncestorChain.step (Item.type (TypeDef.struct ⟨0⟩)) (Item.module ⟨0⟩)
      ["mymod"] rfl rfl hbase
  exact c7_path_of_parent_chain dbC7 (Item.type (TypeDef.struct ⟨0⟩))
    ["mymod", "MyStruct"] hchain 2 (by decide)

/-- C1 counterexample: a `Main` ingot with no root module and one module whose
parse produced a diagnostic; sinking the ingot's diagnostics emits the
missing-module error *and* the module's diagnostic — the code still descends
into every module. -/
theorem c1_counterexample :
    Item.sink_diagnostics dbC1 2 (Item.ingot ⟨0⟩) =
      some [missing_root_diag "foo" "main",
        Diagnostic.simpleError "parse error"] := by
  rfl

/-- C1 (amended): when a `Main` or `Lib` ingot lacks its root module, sinking
its diagnostics emits exactly one top-level missing-module error and then
still sinks the diagnostics of every one of its modules. -/
theorem c1_missing_root_still_descends (db : Db) (g : IngotId) (fuel : Nat)
    (fileName : String)
    (hroot : db.ingotRootModule g = none)
    (hmode : missing_module_file_name (db.ingotData g).mode = some fileName) :
    Item.sink_diagnostics db (fuel + 1) (Item.ingot g) =
      (collectDiags ((db.ingotModules g).map
        (fun m => Item.sink_diagnostics db fuel (Item.module m)))).map
        (fun rest =>
          missing_root_diag (db.ingotData g).name fileName :: rest) := by
  simp only [Item.sink_diagnostics, hroot, hmode]
  cases h : collectDiags ((db.ingotModules g).map
      (fun m => Item.sink_diagnostics db fuel (Item.module m))) with
  | none => rfl
  | some rest => simp

/-- C1 witness: the amended statement instantiated at the concrete missing-root
ingot. -/
theorem c1_witness :
    Item.sink_diagnostics dbC1 2 (Item.ingot ⟨0⟩) =
      (collectDiags ((dbC1.ingotModules ⟨0⟩).map
        (fun m => Item.sink_diagnostics dbC1 1 (Item.module m)))).map
        (fun rest =>
          missing_root_diag (dbC1.ingotData ⟨0⟩).name "main" :: rest) :=
  c1_missing_root_still_descends dbC1 ⟨0⟩ 1 "main" rfl rfl

end Fe
